import Mathlib

/-!
Shallow embedding of `src/src/main.rs` (rinha-q1-2024): an in-memory ledger
with two HTTP handlers, `create_transaction` (POST /clientes/:id/transacoes)
and `get_bank_statement` (GET /clientes/:id/extrato).

Modelling choices:
* Rust `i32` values are modelled as `Int`, and every arithmetic operation
  the source performs on `i32` (`saldo + valor`, `saldo - valor`,
  `-limite`, and the truncating `(statements.len() + 1) as i32` cast) is
  wrapped with `wrap32`, the two's-complement reduction into
  [-2^31, 2^31). This is the release-profile semantics the deployed binary
  has (overflow-checks off: add/sub/neg wrap, `as` truncates); a debug
  build would panic at the points where `wrap32` departs from the
  mathematical value, so wherever a theorem exhibits a wrapped result the
  source misbehaves in both profiles (wrong value vs. panic).
* `HashMap<i32, V>` is modelled as an association list in insertion order
  (`insert` replaces the value in place when the key exists, otherwise
  appends at the end). Rust's `std::collections::HashMap` iteration order is
  unspecified and randomized per process; insertion order is one concrete
  deterministic refinement of it, noted wherever a claim depends on
  iteration order.
* `Utc::now().to_rfc3339()` is an input: each handler takes the current
  timestamp string as an explicit `now` argument.
* The handlers run under both mutexes for their whole body, so requests are
  serialized; a run of the server is a sequence of handler calls threaded
  through the state (`runTransactions`).
-/

/-- Mirrors the Rust struct `Statement` (a stored transaction record). -/
structure Statement where
  id : Int
  valor : Int
  tipo : String
  descricao : String
  realizado_em : String
  user_id : Int
deriving Repr, DecidableEq

/-- Mirrors the Rust struct `LastTransaction` (a statement-response entry). -/
structure LastTransaction where
  valor : Int
  tipo : String
  descricao : String
  realizado_em : String
deriving Repr, DecidableEq

/-- Mirrors the Rust struct `Balance`. -/
structure Balance where
  total : Int
  data_extrato : String
  limite : Int
deriving Repr, DecidableEq

/-- Mirrors the Rust struct `StatementResponse`. -/
structure StatementResponse where
  saldo : Balance
  ultimas_transacoes : List LastTransaction
deriving Repr, DecidableEq

/-- Mirrors the Rust struct `TransactionResponse`. -/
structure TransactionResponse where
  limite : Int
  saldo : Int
deriving Repr, DecidableEq

/-- Mirrors the Rust struct `NewTransaction` (the request body). -/
structure NewTransaction where
  valor : Int
  tipo : String
  descricao : String
deriving Repr, DecidableEq

/-- Mirrors the Rust struct `User` (an account record). -/
structure User where
  id : Int
  limite : Int
  saldo : Int
deriving Repr, DecidableEq

/-- Mirrors the Rust enum `TransactionResult` (200 / 404 / 422). -/
inductive TransactionResult where
  | Success (r : TransactionResponse)
  | NotFound
  | UnprocessableEntity
deriving Repr, DecidableEq

/-- Mirrors the Rust enum `StatementResult` (200 / 404). -/
inductive StatementResult where
  | Success (r : StatementResponse)
  | NotFound
deriving Repr, DecidableEq

/-- Lookup in the association-list model of `HashMap<i32, V>` (`get`). -/
def hmGet {α : Type} (m : List (Int × α)) (k : Int) : Option α :=
  match m with
  | [] => none
  | (k2, v) :: rest => if k2 = k then some v else hmGet rest k

/-- Insertion in the association-list model of `HashMap<i32, V>`: replaces
the value in place when the key is present, otherwise appends at the end. -/
def hmInsert {α : Type} (m : List (Int × α)) (k : Int) (v : α) : List (Int × α) :=
  match m with
  | [] => [(k, v)]
  | (k2, v2) :: rest => if k2 = k then (k, v) :: rest else (k2, v2) :: hmInsert rest k v

/-- Two's-complement wrapping of an integer into the `i32` range
[-2^31, 2^31): the value an `i32` add/sub/neg produces in a release build
(a debug build panics instead when the input is out of range), and the
value of a truncating `as i32` cast. -/
def wrap32 (x : Int) : Int := (x + 2 ^ 31) % 2 ^ 32 - 2 ^ 31

/-- Mirrors the Rust struct `AppState`: the account table and the
transaction log, both keyed by `i32`. -/
structure AppState where
  user_state : List (Int × User)
  statement_state : List (Int × Statement)
deriving Repr, DecidableEq

/-- Mirrors `AppState::new()`: five provisioned accounts, empty log. -/
def AppState.new : AppState :=
  { user_state :=
      [ (1, { id := 1, limite := 100000, saldo := 0 })
      , (2, { id := 2, limite := 80000, saldo := 0 })
      , (3, { id := 3, limite := 1000000, saldo := 0 })
      , (4, { id := 4, limite := 10000000, saldo := 0 })
      , (5, { id := 5, limite := 500000, saldo := 0 }) ]
  , statement_state := [] }

/-- Mirrors the Rust handler `create_transaction` (main.rs lines 211-262):
looks up the user; on `tipo = "c"` adds `valor` to the balance
unconditionally (i32 wrapping addition) and inserts a `Statement` under
the key `(statements.len() + 1) as i32` (truncating cast, `wrap32`); on
`tipo = "d"` subtracts `valor` (i32 wrapping subtraction), rejecting with
422 when the candidate balance is below `-limite` (i32 wrapping negation),
and inserts nothing into the log; any other `tipo` is rejected with 422.
Returns the response together with the post-call state. -/
def create_transaction (state : AppState) (user_id : Int)
    (new_statement : NewTransaction) (now : String) :
    TransactionResult × AppState :=
  match hmGet state.user_state user_id with
  | none => (.NotFound, state)
  | some user =>
    if new_statement.tipo = "c" then
      let balance := wrap32 (user.saldo + new_statement.valor)
      let hack_id : Int := wrap32 ((state.statement_state.length : Int) + 1)
      ( .Success { limite := user.limite, saldo := balance }
      , { user_state := hmInsert state.user_state user_id { user with saldo := balance }
        , statement_state := hmInsert state.statement_state hack_id
            { id := hack_id
            , valor := new_statement.valor
            , tipo := new_statement.tipo
            , descricao := new_statement.descricao
            , realizado_em := now
            , user_id := user_id } } )
    else if new_statement.tipo = "d" then
      let new_balance := wrap32 (user.saldo - new_statement.valor)
      if new_balance < wrap32 (-user.limite) then
        (.UnprocessableEntity, state)
      else
        ( .Success { limite := user.limite, saldo := new_balance }
        , { state with
              user_state := hmInsert state.user_state user_id { user with saldo := new_balance } } )
    else
      (.UnprocessableEntity, state)

/-- Mirrors the Rust handler `get_bank_statement` (main.rs lines 173-209):
looks up the user; on success returns the balance snapshot (with the
current timestamp) and the first 10 log entries whose `user_id` matches,
in the log's iteration order (modelled as insertion order). The handler
mutates nothing. -/
def get_bank_statement (state : AppState) (user_id : Int) (now : String) :
    StatementResult :=
  match hmGet state.user_state user_id with
  | none => .NotFound
  | some user =>
    .Success
      { saldo := { total := user.saldo, data_extrato := now, limite := user.limite }
      , ultimas_transacoes :=
          ((state.statement_state.filter (fun p => p.2.user_id = user_id)).take 10).map
            (fun p =>
              { valor := p.2.valor
              , tipo := p.2.tipo
              , descricao := p.2.descricao
              , realizado_em := p.2.realizado_em }) }

/-- One inbound transaction request: target account, body, current time. -/
structure Req where
  uid : Int
  tx : NewTransaction
  now : String

/-- Runs a sequence of transaction requests through `create_transaction`,
threading the state (requests are serialized by the two mutexes). -/
def runTransactions (state : AppState) (reqs : List Req) : AppState :=
  reqs.foldl (fun s r => (create_transaction s r.uid r.tx r.now).2) state

/-- The spec's scenario sequence on account 1: accepted debit of 1000,
rejected debit of 200000, accepted credit of 5000. -/
def scenarioState : AppState :=
  runTransactions AppState.new
    [ ⟨1, ⟨1000, "d", "x"⟩, "t1"⟩
    , ⟨1, ⟨200000, "d", "y"⟩, "t2"⟩
    , ⟨1, ⟨5000, "c", "z"⟩, "t3"⟩ ]

/-- C1: after the scenario sequence (accepted debit 1000, rejected debit
200000, accepted credit 5000 on account 1), the statement query returns
exactly ONE transaction entry (only the credit), not the two the claim
requires: the debit branch of `create_transaction` never inserts into the
statement log, so accepted debits leave no record. The balance (4000) is
as the spec predicts; the history is not. -/
theorem scenario_statement_has_one_entry :
    get_bank_statement scenarioState 1 "t4" =
      .Success
        { saldo := { total := 4000, data_extrato := "t4", limite := 100000 }
        , ultimas_transacoes := [{ valor := 5000, tipo := "c", descricao := "z", realizado_em := "t3" }] } ∧
    ∀ r, get_bank_statement scenarioState 1 "t4" = .Success r →
      r.ultimas_transacoes.length = 1 := by
  refine ⟨by decide, ?_⟩
  intro r hr
  have h : StatementResult.Success
      { saldo := { total := 4000, data_extrato := "t4", limite := 100000 }
      , ultimas_transacoes := [{ valor := 5000, tipo := "c", descricao := "z", realizado_em := "t3" }] } =
      StatementResult.Success r := by
    rw [← hr]; decide
  cases h
  decide

/-- C2: a single credit request with negative `valor` (-200000) on account 1
is accepted (no positivity validation exists) and drives the balance to
-200000, strictly below `-limite = -100000`: the invariant
`balance >= -limit` does not hold over all sequences of requests processed
by `create_transaction`. -/
theorem negative_credit_breaks_invariant :
    hmGet (runTransactions AppState.new [⟨1, ⟨-200000, "c", "w"⟩, "t1"⟩]).user_state 1 =
      some { id := 1, limite := 100000, saldo := -200000 } ∧
    ¬ (-200000 : Int) ≥ -(100000 : Int) := by
  exact ⟨by decide, by decide⟩

/-- C3: the request `{valor := -5, tipo := "c", descricao := ""}` violates
both the amount-positivity and the description-length constraint, yet
`create_transaction` accepts it with a 200 Success, changes the balance to
-5 and appends a log record: only `tipo` is ever validated, so the claimed
InvalidInput/422 rejection with no state change does not happen. -/
theorem invalid_input_accepted :
    create_transaction AppState.new 1 ⟨-5, "c", ""⟩ "t1" =
      ( .Success { limite := 100000, saldo := -5 }
      , { user_state :=
            [ (1, { id := 1, limite := 100000, saldo := -5 })
            , (2, { id := 2, limite := 80000, saldo := 0 })
            , (3, { id := 3, limite := 1000000, saldo := 0 })
            , (4, { id := 4, limite := 10000000, saldo := 0 })
            , (5, { id := 5, limite := 500000, saldo := 0 }) ]
        , statement_state :=
            [ (1, { id := 1, valor := -5, tipo := "c", descricao := "", realizado_em := "t1", user_id := 1 }) ] } ) := by
  decide

/-- C4: after two accepted credits on account 1 (valor 10 at t1, then
valor 20 at t2), the statement query returns the records oldest-first
([credit 10, credit 20]) under the insertion-order model of the HashMap
iteration (the real iteration order is unspecified, so no order is
guaranteed at all): the claimed strictly-decreasing-recency order
(most recent first, [credit 20, credit 10]) does not hold, and the new
record was appended at the tail, not prepended. -/
theorem statement_not_most_recent_first :
    get_bank_statement
        (runTransactions AppState.new [⟨1, ⟨10, "c", "a"⟩, "t1"⟩, ⟨1, ⟨20, "c", "b"⟩, "t2"⟩]) 1 "t3" =
      .Success
        { saldo := { total := 30, data_extrato := "t3", limite := 100000 }
        , ultimas_transacoes :=
            [ { valor := 10, tipo := "c", descricao := "a", realizado_em := "t1" }
            , { valor := 20, tipo := "c", descricao := "b", realizado_em := "t2" } ] } := by
  decide

theorem hmGet_hmInsert {α : Type} (m : List (Int × α)) (k j : Int) (v : α) :
    hmGet (hmInsert m k v) j = if k = j then some v else hmGet m j := by
  induction m with
  | nil => simp [hmInsert, hmGet]
  | cons p rest ih =>
    obtain ⟨k2, v2⟩ := p
    by_cases h : k2 = k
    · subst h
      simp only [hmInsert, if_pos rfl, hmGet]
      by_cases hj : k2 = j
      · subst hj; simp
      · simp [hmGet, hj]
    · simp only [hmInsert, if_neg h, hmGet]
      by_cases hj : k2 = j
      · subst hj
        have hk : ¬ k = k2 := fun hh => h hh.symm
        simp [hk]
      · simp [hj, ih]

theorem wrap32_eq_self {x : Int} (h1 : -2 ^ 31 ≤ x) (h2 : x < 2 ^ 31) : wrap32 x = x := by
  rw [wrap32]
  omega

/-- The C5 counterexample state: account 4 (limit 10,000,000) debited by a
valid request to its overdraft floor, saldo -10,000,000. Every value
involved is in i32 range, so the state is reachable by the real program. -/
def overdraftState : AppState :=
  runTransactions AppState.new [⟨4, ⟨10000000, "d", "a"⟩, "t1"⟩]

/-- C5 counterexample: at saldo -10,000,000 (account 4) a debit of
2,147,483,647 (a valid positive i32 amount) has mathematical candidate
-2,157,483,647 < -limite, so the claim requires a 422 rejection with no
mutation; the source's release-profile `saldo - valor` wraps to
+2,137,483,649, passes the limit check, and the debit is committed (a
debug build panics instead — in neither profile does the claimed
rejection happen). -/
theorem debit_overflow_commits :
    ((-10000000 : Int) - 2147483647 < -(10000000 : Int)) ∧
    (create_transaction overdraftState 4 ⟨2147483647, "d", "b"⟩ "t2").1 =
      .Success { limite := 10000000, saldo := 2137483649 } ∧
    hmGet (create_transaction overdraftState 4 ⟨2147483647, "d", "b"⟩ "t2").2.user_state 4 =
      some { id := 4, limite := 10000000, saldo := 2137483649 } :=
  ⟨by decide, by decide, by decide⟩

/-- C5 (amended): for an existing account with in-range i32 fields and a
nonnegative limit (true of every reachable state) and a positive in-range
debit amount, the debit is rejected with 422 and the whole state (balance
and log) left untouched exactly when the wrapped i32 candidate
`wrap32 (saldo - amount)` is below `-limite`; otherwise it commits the
wrapped candidate as the new balance, returns it with the limit, and
leaves the log untouched. The wrapped candidate coincides with the spec's
mathematical candidate `saldo - amount` whenever the subtraction does not
underflow i32 (third conjunct). -/
theorem debit_rejected_iff_limit_exceeded (state : AppState) (uid : Int) (user : User)
    (amount : Int) (desc now : String)
    (hu : hmGet state.user_state uid = some user) (hpos : 0 < amount)
    (hamt : amount < 2 ^ 31)
    (hsal1 : -2 ^ 31 ≤ user.saldo) (hsal2 : user.saldo < 2 ^ 31)
    (hlim1 : 0 ≤ user.limite) (hlim2 : user.limite < 2 ^ 31) :
    (wrap32 (user.saldo - amount) < -user.limite →
      create_transaction state uid ⟨amount, "d", desc⟩ now = (.UnprocessableEntity, state)) ∧
    (-user.limite ≤ wrap32 (user.saldo - amount) →
      create_transaction state uid ⟨amount, "d", desc⟩ now =
        ( .Success { limite := user.limite, saldo := wrap32 (user.saldo - amount) }
        , { state with
              user_state := hmInsert state.user_state uid
                { user with saldo := wrap32 (user.saldo - amount) } } )) ∧
    (-2 ^ 31 ≤ user.saldo - amount → wrap32 (user.saldo - amount) = user.saldo - amount) := by
  have hneg : wrap32 (-user.limite) = -user.limite := wrap32_eq_self (by omega) (by omega)
  refine ⟨?_, ?_, ?_⟩
  · intro h
    simp [create_transaction, hu, hneg, h]
  · intro h
    simp [create_transaction, hu, hneg, not_lt.mpr h]
  · intro h
    exact wrap32_eq_self h (by omega)

/-- Witness for amended C5 at concrete inputs: from the initial state, a
debit of 200000 on account 1 (limit 100000, balance 0) is rejected
leaving the state untouched, and a debit of 1000 succeeds committing the
in-range (hence unwrapped) candidate -1000. -/
theorem debit_rejected_iff_limit_exceeded_witness :
    create_transaction AppState.new 1 ⟨200000, "d", "x"⟩ "t1" = (.UnprocessableEntity, AppState.new) ∧
    create_transaction AppState.new 1 ⟨1000, "d", "y"⟩ "t2" =
      ( .Success { limite := 100000, saldo := wrap32 ((0 : Int) - 1000) }
      , { AppState.new with
            user_state := hmInsert AppState.new.user_state 1
              { id := 1, limite := 100000, saldo := wrap32 ((0 : Int) - 1000) } } ) ∧
    wrap32 ((0 : Int) - 1000) = (0 : Int) - 1000 := by
  refine ⟨?_, ?_, ?_⟩
  · exact (debit_rejected_iff_limit_exceeded AppState.new 1 ⟨1, 100000, 0⟩ 200000 "x" "t1"
      (by decide) (by decide) (by decide) (by decide) (by decide) (by decide) (by decide)).1 (by decide)
  · exact (debit_rejected_iff_limit_exceeded AppState.new 1 ⟨1, 100000, 0⟩ 1000 "y" "t2"
      (by decide) (by decide) (by decide) (by decide) (by decide) (by decide) (by decide)).2.1 (by decide)
  · exact (debit_rejected_iff_limit_exceeded AppState.new 1 ⟨1, 100000, 0⟩ 1000 "y" "t2"
      (by decide) (by decide) (by decide) (by decide) (by decide) (by decide) (by decide)).2.2 (by decide)

/-- The C6 counterexample state: account 1 credited by a single valid
request of 2,147,483,647 (the i32 maximum), reaching that saldo. -/
def maxCreditState : AppState :=
  runTransactions AppState.new [⟨1, ⟨2147483647, "c", "a"⟩, "t1"⟩]

/-- C6 counterexample: with saldo = 2,147,483,647 (reachable by one valid
positive credit), a further credit of 1 does not set the balance to
balance + amount = 2,147,483,648: the release-profile `saldo + valor`
wraps to -2,147,483,648 (a debug build panics, i.e. does not succeed at
all), so the universally quantified claim fails on the program. -/
theorem credit_overflow_wraps :
    hmGet maxCreditState.user_state 1 = some { id := 1, limite := 100000, saldo := 2147483647 } ∧
    (create_transaction maxCreditState 1 ⟨1, "c", "b"⟩ "t2").1 =
      .Success { limite := 100000, saldo := -2147483648 } ∧
    ((-2147483648 : Int) ≠ 2147483647 + 1) :=
  ⟨by decide, by decide, by decide⟩

/-- C6 (amended): for an existing account and a positive credit amount,
the credit is never checked against the limit and (release semantics)
always returns Success with the post-transaction pair `{limite, saldo}`,
the committed balance being the wrapped i32 sum `wrap32 (saldo + amount)`
— equal to the spec's `saldo + amount` whenever that sum fits in i32
(second conjunct) — and a log record is inserted under the wrapped key
`(len + 1) as i32`. -/
theorem credit_always_succeeds (state : AppState) (uid : Int) (user : User)
    (amount : Int) (desc now : String)
    (hu : hmGet state.user_state uid = some user) (hpos : 0 < amount) :
    create_transaction state uid ⟨amount, "c", desc⟩ now =
      ( .Success { limite := user.limite, saldo := wrap32 (user.saldo + amount) }
      , { user_state := hmInsert state.user_state uid { user with saldo := wrap32 (user.saldo + amount) }
        , statement_state := hmInsert state.statement_state
            (wrap32 ((state.statement_state.length : Int) + 1))
            { id := wrap32 ((state.statement_state.length : Int) + 1)
            , valor := amount, tipo := "c", descricao := desc
            , realizado_em := now, user_id := uid } } ) ∧
    (-2 ^ 31 ≤ user.saldo + amount → user.saldo + amount < 2 ^ 31 →
      wrap32 (user.saldo + amount) = user.saldo + amount) := by
  constructor
  · simp [create_transaction, hu]
  · intro h1 h2
    exact wrap32_eq_self h1 h2

/-- Witness for amended C6 at concrete inputs: from the initial state, a
credit of 5000 on account 1 succeeds with new balance 5000 (the sum is in
range, so unwrapped) and appends record 1. -/
theorem credit_always_succeeds_witness :
    create_transaction AppState.new 1 ⟨5000, "c", "z"⟩ "t3" =
      ( .Success { limite := 100000, saldo := wrap32 ((0 : Int) + 5000) }
      , { user_state := hmInsert AppState.new.user_state 1
            { id := 1, limite := 100000, saldo := wrap32 ((0 : Int) + 5000) }
        , statement_state := hmInsert AppState.new.statement_state
            (wrap32 ((AppState.new.statement_state.length : Int) + 1))
            { id := wrap32 ((AppState.new.statement_state.length : Int) + 1)
            , valor := 5000, tipo := "c", descricao := "z"
            , realizado_em := "t3", user_id := 1 } } ) ∧
    wrap32 ((0 : Int) + 5000) = (0 : Int) + 5000 := by
  refine ⟨?_, ?_⟩
  · exact (credit_always_succeeds AppState.new 1 ⟨1, 100000, 0⟩ 5000 "z" "t3"
      (by decide) (by decide)).1
  · exact (credit_always_succeeds AppState.new 1 ⟨1, 100000, 0⟩ 5000 "z" "t3"
      (by decide) (by decide)).2 (by decide) (by decide)

/-- C7: for an account id absent from the account table, both endpoints
return NotFound and the transaction endpoint leaves the state unchanged
(the statement endpoint mutates nothing by construction); for an existing
account the statement query always returns Success with that account's
balance and limit, and an empty transaction list when the log holds no
records for the account. -/
theorem unknown_account_both_not_found (state : AppState) (uid : Int)
    (t : NewTransaction) (now now2 : String) :
    (hmGet state.user_state uid = none →
      create_transaction state uid t now = (.NotFound, state) ∧
      get_bank_statement state uid now2 = .NotFound) ∧
    (∀ user, hmGet state.user_state uid = some user →
      ∃ resp, get_bank_statement state uid now2 = .Success resp ∧
        resp.saldo.total = user.saldo ∧ resp.saldo.limite = user.limite ∧
        (state.statement_state.filter (fun p => p.2.user_id = uid) = [] →
          resp.ultimas_transacoes = [])) := by
  constructor
  · intro h
    exact ⟨by simp [create_transaction, h], by simp [get_bank_statement, h]⟩
  · intro user hu
    simp only [get_bank_statement, hu]
    refine ⟨_, rfl, rfl, rfl, ?_⟩
    intro hf
    simp [hf]

/-- Witness for C7 at concrete inputs: account 999 is unknown (both
endpoints NotFound, no state change); account 1 exists in the initial
state and its statement succeeds with an empty history. -/
theorem unknown_account_both_not_found_witness :
    (create_transaction AppState.new 999 ⟨1, "c", "x"⟩ "t1" = (.NotFound, AppState.new) ∧
     get_bank_statement AppState.new 999 "t2" = .NotFound) ∧
    (∃ resp, get_bank_statement AppState.new 1 "t2" = .Success resp ∧
      resp.ultimas_transacoes = []) := by
  constructor
  · exact (unknown_account_both_not_found AppState.new 999 ⟨1, "c", "x"⟩ "t1" "t2").1 (by decide)
  · obtain ⟨resp, hr, _, _, hemp⟩ :=
      (unknown_account_both_not_found AppState.new 1 ⟨1, "c", "x"⟩ "t1" "t2").2
        ⟨1, 100000, 0⟩ (by decide)
    exact ⟨resp, hr, hemp (by decide)⟩

/-- C9: two consecutive statement reads of the same account against the
same state (no intervening transaction; the read itself mutates nothing)
agree on found-ness, balance, limit and transaction history; only the
`data_extrato` timestamp may differ. -/
theorem statement_read_idempotent (state : AppState) (uid : Int) (now1 now2 : String) :
    (get_bank_statement state uid now1 = .NotFound ↔
     get_bank_statement state uid now2 = .NotFound) ∧
    (∀ r1 r2, get_bank_statement state uid now1 = .Success r1 →
      get_bank_statement state uid now2 = .Success r2 →
      r1.saldo.total = r2.saldo.total ∧ r1.saldo.limite = r2.saldo.limite ∧
      r1.ultimas_transacoes = r2.ultimas_transacoes) := by
  rcases hu : hmGet state.user_state uid with _ | user
  · simp [get_bank_statement, hu]
  · simp only [get_bank_statement, hu]
    constructor
    · simp
    · intro r1 r2 h1 h2
      injection h1 with h1
      injection h2 with h2
      subst h1
      subst h2
      exact ⟨rfl, rfl, rfl⟩

/-- Witness for C9 at concrete inputs: two reads of account 1 in the
initial state at distinct timestamps agree on balance, limit, history. -/
theorem statement_read_idempotent_witness :
    ({ saldo := { total := 0, data_extrato := "t1", limite := 100000 }
     , ultimas_transacoes := [] } : StatementResponse).saldo.total =
      ({ saldo := { total := 0, data_extrato := "t2", limite := 100000 }
       , ultimas_transacoes := [] } : StatementResponse).saldo.total ∧
    ({ saldo := { total := 0, data_extrato := "t1", limite := 100000 }
     , ultimas_transacoes := [] } : StatementResponse).saldo.limite =
      ({ saldo := { total := 0, data_extrato := "t2", limite := 100000 }
       , ultimas_transacoes := [] } : StatementResponse).saldo.limite ∧
    ({ saldo := { total := 0, data_extrato := "t1", limite := 100000 }
     , ultimas_transacoes := [] } : StatementResponse).ultimas_transacoes =
      ({ saldo := { total := 0, data_extrato := "t2", limite := 100000 }
       , ultimas_transacoes := [] } : StatementResponse).ultimas_transacoes :=
  (statement_read_idempotent AppState.new 1 "t1" "t2").2 _ _ (by decide) (by decide)


theorem create_transaction_user_state (state : AppState) (uid : Int)
    (t : NewTransaction) (now : String) :
    (create_transaction state uid t now).2.user_state = state.user_state ∨
    ∃ user newSaldo, hmGet state.user_state uid = some user ∧
      (create_transaction state uid t now).2.user_state =
        hmInsert state.user_state uid { user with saldo := newSaldo } := by
  rcases hu : hmGet state.user_state uid with _ | user
  · left; simp [create_transaction, hu]
  · by_cases hc : t.tipo = "c"
    · right
      exact ⟨user, wrap32 (user.saldo + t.valor), rfl, by simp [create_transaction, hu, hc]⟩
    · by_cases hd : t.tipo = "d"
      · by_cases hlim : wrap32 (user.saldo - t.valor) < wrap32 (-user.limite)
        · left; simp [create_transaction, hu, hc, hd, hlim]
        · right
          exact ⟨user, wrap32 (user.saldo - t.valor), rfl, by simp [create_transaction, hu, hc, hd, hlim]⟩
      · left; simp [create_transaction, hu, hc, hd]

/-- C10: a transaction request on account `uid` changes no other key of the
account table, and the target account keeps its `id` and `limite` fields
(only `saldo` may change). The statement handler takes no mutable access
to either store in the source, which the embedding reflects by
`get_bank_statement` returning a result and no state. -/
theorem transaction_frame (state : AppState) (uid : Int) (t : NewTransaction) (now : String) :
    (∀ j, j ≠ uid →
      hmGet (create_transaction state uid t now).2.user_state j = hmGet state.user_state j) ∧
    (∀ u1 u2, hmGet state.user_state uid = some u1 →
      hmGet (create_transaction state uid t now).2.user_state uid = some u2 →
      u2.id = u1.id ∧ u2.limite = u1.limite) := by
  rcases create_transaction_user_state state uid t now with h | ⟨user, ns, hu, h⟩
  · constructor
    · intro j hj
      rw [h]
    · intro u1 u2 h1 h2
      rw [h, h1] at h2
      injection h2 with h2
      subst h2
      exact ⟨rfl, rfl⟩
  · constructor
    · intro j hj
      rw [h, hmGet_hmInsert, if_neg (Ne.symm hj)]
    · intro u1 u2 h1 h2
      rw [h, hmGet_hmInsert, if_pos rfl] at h2
      rw [hu] at h1
      injection h1 with h1
      injection h2 with h2
      subst h1
      subst h2
      exact ⟨rfl, rfl⟩

/-- Witness for C10 at concrete inputs: a credit on account 1 from the
initial state leaves account 2's record untouched and preserves account
1's `id` and `limite`. -/
theorem transaction_frame_witness :
    hmGet (create_transaction AppState.new 1 ⟨5, "c", "x"⟩ "t1").2.user_state 2 =
      hmGet AppState.new.user_state 2 ∧
    (({ id := 1, limite := 100000, saldo := 5 } : User).id = ({ id := 1, limite := 100000, saldo := 0 } : User).id ∧
     ({ id := 1, limite := 100000, saldo := 5 } : User).limite = ({ id := 1, limite := 100000, saldo := 0 } : User).limite) :=
  ⟨(transaction_frame AppState.new 1 ⟨5, "c", "x"⟩ "t1").1 2 (by decide),
   (transaction_frame AppState.new 1 ⟨5, "c", "x"⟩ "t1").2 ⟨1, 100000, 0⟩ ⟨1, 100000, 5⟩ (by decide) (by decide)⟩

/-- The mathematical (unwrapped) id sequence 1, 2, ..., n. -/
def idList (n : Nat) : List Int := (List.range n).map (fun i : Nat => ((i : Int) + 1))

theorem hmInsert_fresh {α : Type} (m : List (Int × α)) (k : Int) (v : α)
    (h : k ∉ m.map Prod.fst) : hmInsert m k v = m ++ [(k, v)] := by
  induction m with
  | nil => rfl
  | cons p rest ih =>
    obtain ⟨k2, v2⟩ := p
    simp only [List.map_cons, List.mem_cons, not_or] at h
    obtain ⟨h1, h2⟩ := h
    rw [hmInsert, if_neg (Ne.symm h1)]
    rw [ih h2]
    rfl

theorem idList_succ (n : Nat) : idList (n + 1) = idList n ++ [(n : Int) + 1] := by
  simp [idList, List.range_succ]

theorem create_transaction_statement_state (s : AppState) (uid : Int)
    (t : NewTransaction) (now : String) :
    (create_transaction s uid t now).2.statement_state = s.statement_state ∨
    (create_transaction s uid t now).2.statement_state =
      hmInsert s.statement_state (wrap32 ((s.statement_state.length : Int) + 1))
        { id := wrap32 ((s.statement_state.length : Int) + 1)
        , valor := t.valor, tipo := t.tipo, descricao := t.descricao
        , realizado_em := now, user_id := uid } := by
  rcases hu : hmGet s.user_state uid with _ | user
  · left; simp [create_transaction, hu]
  · by_cases hc : t.tipo = "c"
    · right; simp [create_transaction, hu, hc]
    · by_cases hd : t.tipo = "d"
      · by_cases hlim : wrap32 (user.saldo - t.valor) < wrap32 (-user.limite)
        · left; simp [create_transaction, hu, hc, hd, hlim]
        · left; simp [create_transaction, hu, hc, hd, hlim]
      · left; simp [create_transaction, hu, hc, hd]

theorem idList_pairwise (n : Nat) : (idList n).Pairwise (· < ·) := by
  rw [idList, List.pairwise_map]
  refine (List.pairwise_lt_range n).imp ?_
  intro hab
  omega

theorem wrap32_inj_small {a b : Int} (ha : 0 < a) (hb : 0 < b)
    (hab : a ≤ 2 ^ 32) (hba : b ≤ 2 ^ 32) (h : wrap32 a = wrap32 b) : a = b := by
  rw [wrap32, wrap32] at h
  omega

/-- The id sequence the source actually assigns: the truncating `as i32`
cast applied to len + 1 for each appended record, i.e. wrap32 (i + 1) for
the i-th record. -/
def idList32 (n : Nat) : List Int :=
  (List.range n).map (fun i : Nat => wrap32 ((i : Int) + 1))

/-- Invariant of the statement log: the stored keys and the records' `id`
fields are exactly wrap32 1, wrap32 2, ..., wrap32 len in insertion
order. -/
def logShape32 (l : List (Int × Statement)) : Prop :=
  l.map Prod.fst = idList32 l.length ∧ l.map (fun p => p.2.id) = idList32 l.length

theorem idList32_succ (n : Nat) :
    idList32 (n + 1) = idList32 n ++ [wrap32 ((n : Int) + 1)] := by
  simp [idList32, List.range_succ]

theorem idList32_eq_idList {n : Nat} (h : (n : Int) < 2 ^ 31) : idList32 n = idList n := by
  rw [idList32, idList]
  apply List.map_congr_left
  intro i hi
  rw [List.mem_range] at hi
  exact wrap32_eq_self (by omega) (by omega)

theorem key32_fresh {l : List (Int × Statement)} (h : logShape32 l)
    (hlen : l.length < 2 ^ 32) :
    wrap32 ((l.length : Int) + 1) ∉ l.map Prod.fst := by
  intro hmem
  rw [h.1, idList32] at hmem
  rcases List.mem_map.mp hmem with ⟨i, hi, hk⟩
  rw [List.mem_range] at hi
  have := wrap32_inj_small (by omega) (by omega) (by omega) (by omega) hk
  omega

theorem logShape32_append_key (l : List (Int × Statement)) (st : Statement)
    (h : logShape32 l) (hlen : l.length < 2 ^ 32)
    (hid : st.id = wrap32 ((l.length : Int) + 1)) :
    logShape32 (hmInsert l (wrap32 ((l.length : Int) + 1)) st) ∧
    (hmInsert l (wrap32 ((l.length : Int) + 1)) st).length = l.length + 1 := by
  rw [hmInsert_fresh _ _ _ (key32_fresh h hlen)]
  refine ⟨⟨?_, ?_⟩, by simp⟩
  · rw [List.map_append, h.1, List.length_append]
    simp [idList32_succ]
  · rw [List.map_append, h.2, List.length_append]
    simp [idList32_succ, hid]

theorem logShape32_step (s : AppState) (uid : Int) (t : NewTransaction) (now : String)
    (h : logShape32 s.statement_state) (hlen : s.statement_state.length < 2 ^ 32) :
    logShape32 (create_transaction s uid t now).2.statement_state ∧
    (create_transaction s uid t now).2.statement_state.length ≤ s.statement_state.length + 1 := by
  rcases create_transaction_statement_state s uid t now with heq | heq
  · rw [heq]; exact ⟨h, by omega⟩
  · rw [heq]
    have hk := logShape32_append_key s.statement_state
      { id := wrap32 ((s.statement_state.length : Int) + 1)
      , valor := t.valor, tipo := t.tipo, descricao := t.descricao
      , realizado_em := now, user_id := uid } h hlen rfl
    exact ⟨hk.1, hk.2.le⟩

theorem runTransactions_cons (s : AppState) (r : Req) (rest : List Req) :
    runTransactions s (r :: rest) =
      runTransactions (create_transaction s r.uid r.tx r.now).2 rest := rfl

theorem runTransactions_append (s : AppState) (l1 l2 : List Req) :
    runTransactions s (l1 ++ l2) = runTransactions (runTransactions s l1) l2 := by
  simp [runTransactions, List.foldl_append]

theorem logShape32_run (reqs : List Req) (s : AppState)
    (h : logShape32 s.statement_state)
    (hlen : s.statement_state.length + reqs.length ≤ 2 ^ 32) :
    logShape32 (runTransactions s reqs).statement_state ∧
    (runTransactions s reqs).statement_state.length ≤
      s.statement_state.length + reqs.length := by
  induction reqs generalizing s with
  | nil => exact ⟨h, by simp [runTransactions]⟩
  | cons r rest ih =>
    rw [List.length_cons] at hlen
    have hstep := logShape32_step s r.uid r.tx r.now h (by omega)
    have hrec := ih ((create_transaction s r.uid r.tx r.now).2) hstep.1 (by omega)
    rw [runTransactions_cons]
    refine ⟨hrec.1, ?_⟩
    have h2 := hrec.2
    have h3 := hstep.2
    rw [List.length_cons]
    omega

/-- C8 (amended): over every sequence of fewer than 2^31 requests run
from the initial state, the ids of the records in the statement log are
strictly increasing in insertion (append) order and no two records share
an id. (At the 2^31-th accepted credit the `as i32` key cast wraps and
monotonicity fails — see the counterexample.) -/
theorem log_ids_increasing_and_unique (reqs : List Req) (hlen : reqs.length < 2 ^ 31) :
    ((runTransactions AppState.new reqs).statement_state.map (fun p => p.2.id)).Pairwise (· < ·) ∧
    ((runTransactions AppState.new reqs).statement_state.map (fun p => p.2.id)).Nodup := by
  have hlen0 : AppState.new.statement_state.length = 0 := rfl
  have h := logShape32_run reqs AppState.new ⟨rfl, rfl⟩ (by omega)
  have h2 := h.2
  have hlen2 : (((runTransactions AppState.new reqs).statement_state.length : Int)) < 2 ^ 31 := by
    omega
  rw [h.1.2, idList32_eq_idList hlen2]
  exact ⟨idList_pairwise _, (idList_pairwise _).imp ne_of_lt⟩

/-- Witness for amended C8: a single accepted credit from the initial
state yields the one-record log with id 1, trivially increasing and
duplicate-free. -/
theorem log_ids_increasing_and_unique_witness :
    ((runTransactions AppState.new [⟨1, ⟨5, "c", "x"⟩, "t1"⟩]).statement_state.map
      (fun p => p.2.id)).Pairwise (· < ·) ∧
    ((runTransactions AppState.new [⟨1, ⟨5, "c", "x"⟩, "t1"⟩]).statement_state.map
      (fun p => p.2.id)).Nodup :=
  log_ids_increasing_and_unique [⟨1, ⟨5, "c", "x"⟩, "t1"⟩] (by decide)

/-- A zero-valued credit request on account 1: accepted by the source
(no amount validation), appends a record, leaves the balance at 0 — so a
run of these grows only the log. -/
def zeroCreditReq : Req := ⟨1, ⟨0, "c", "x"⟩, "t"⟩

theorem zeroCredit_step (s : AppState)
    (hu : hmGet s.user_state 1 = some { id := 1, limite := 100000, saldo := 0 })
    (hsh : logShape32 s.statement_state) (hlen : s.statement_state.length < 2 ^ 32) :
    hmGet (runTransactions s [zeroCreditReq]).user_state 1 =
      some { id := 1, limite := 100000, saldo := 0 } ∧
    logShape32 (runTransactions s [zeroCreditReq]).statement_state ∧
    (runTransactions s [zeroCreditReq]).statement_state.length =
      s.statement_state.length + 1 := by
  have hct : runTransactions s [zeroCreditReq] =
      { user_state := hmInsert s.user_state 1 { id := 1, limite := 100000, saldo := wrap32 0 }
      , statement_state := hmInsert s.statement_state
          (wrap32 ((s.statement_state.length : Int) + 1))
          { id := wrap32 ((s.statement_state.length : Int) + 1)
          , valor := 0, tipo := "c", descricao := "x"
          , realizado_em := "t", user_id := 1 } } := by
    show (create_transaction s 1 ⟨0, "c", "x"⟩ "t").2 = _
    simp [create_transaction, hu]
  rw [hct]
  have hk := logShape32_append_key s.statement_state
    { id := wrap32 ((s.statement_state.length : Int) + 1)
    , valor := 0, tipo := "c", descricao := "x"
    , realizado_em := "t", user_id := 1 } hsh hlen rfl
  refine ⟨?_, hk.1, hk.2⟩
  rw [hmGet_hmInsert, if_pos rfl]
  decide

theorem zeroCredit_run_invariant (n : Nat) (hn : n ≤ 2 ^ 32) :
    hmGet (runTransactions AppState.new (List.replicate n zeroCreditReq)).user_state 1 =
      some { id := 1, limite := 100000, saldo := 0 } ∧
    logShape32 (runTransactions AppState.new (List.replicate n zeroCreditReq)).statement_state ∧
    (runTransactions AppState.new (List.replicate n zeroCreditReq)).statement_state.length = n := by
  induction n with
  | zero => exact ⟨rfl, ⟨rfl, rfl⟩, rfl⟩
  | succ m ih =>
    obtain ⟨hu, hsh, hln⟩ := ih (by omega)
    rw [List.replicate_succ', runTransactions_append]
    have hstep := zeroCredit_step _ hu hsh (by omega)
    exact ⟨hstep.1, hstep.2.1, by rw [hstep.2.2, hln]⟩

/-- C8 counterexample: 2^31 accepted zero-valued credits — a concrete
sequence of requests the source accepts — drive the log to 2^31 records
whose ids are the wrapped values 1, 2, ..., 2^31 - 1, -2^31: the
`(statements.len() + 1) as i32` cast wraps at the 2^31-th record, so the
id sequence is not monotonically increasing, refuting the claim as
stated over all sequences. -/
theorem sequence_id_wraps :
    ¬ ((runTransactions AppState.new (List.replicate (2 ^ 31) zeroCreditReq)).statement_state.map
        (fun p => p.2.id)).Pairwise (· < ·) := by
  intro hp
  obtain ⟨-, hsh, hln⟩ := zeroCredit_run_invariant (2 ^ 31) (by norm_num)
  rw [hsh.2, hln] at hp
  have h31 : (2 ^ 31 : Nat) = (2 ^ 31 - 1) + 1 := by norm_num
  rw [h31, idList32_succ] at hp
  have hmem1 : (1 : Int) ∈ idList32 (2 ^ 31 - 1) := by
    rw [idList32]
    refine List.mem_map.mpr ⟨0, ?_, by decide⟩
    rw [List.mem_range]
    norm_num
  have hrel := (List.pairwise_append.mp hp).2.2 1 hmem1
    (wrap32 (((2 ^ 31 - 1 : Nat) : Int) + 1)) (List.mem_singleton.mpr rfl)
  have hw : wrap32 (((2 ^ 31 - 1 : Nat) : Int) + 1) = -(2 ^ 31) := by decide
  rw [hw] at hrel
  norm_num at hrel
